import Mathlib

/-!
Verification of the streaming session-management hook `useSSEChat`
(src/frontend/src/hooks/useSSEChat.js) of the Gavigans chat widget.

The JavaScript hook is shallowly embedded: its pure helpers become Lean
functions, the React state (messages, status, streamingText, aiPaused, ...)
and the mutable refs / localStorage keys become fields of an explicit
`AppState` record, and each callback (`sendMessage`, `ensureSession`,
`tryRecoverSession`, the inbound SSE handler, `reset`) becomes a state
transformer.  Network responses are passed in explicitly through a
`Network` record.  JavaScript truthiness of strings ("" is falsy) is made
explicit via `strTruthy`, and of numbers (0 is falsy) via `intTruthy`.

`ensureSession` suspends at its two `await fetch` points; to reason about
overlapping invocations it is decomposed into the three atomic segments
between those suspension points (`startSeg`, `resumeRecover`,
`resumeCreate`), and an interleaving machine (`sysStep` / `sysRun`) runs
any number of concurrent callers under an arbitrary schedule.  The
sequential `ensureSessionSeq` is the composition of the same segments.
-/

/-! ## JS truthiness helpers -/

/-- Truthiness of a possibly-absent JS string: `undefined`/`null` and `""`
are falsy. -/
def strTruthy : Option String → Bool
  | some s => s ≠ ""
  | none => false

/-- Truthiness of a possibly-absent JS number: `undefined` and `0` are
falsy. -/
def intTruthy : Option Int → Bool
  | some n => n ≠ 0
  | none => false

/-- The characters JavaScript's `String.prototype.trim()` strips (the
ASCII ones; the exotic Unicode space code points never occur in the
strings this client handles). -/
def isJsSpace (c : Char) : Bool :=
  c = ' ' ∨ c = '\t' ∨ c = '\n' ∨ c = '\r' ∨ c = '\x0b' ∨ c = '\x0c'

/-- JavaScript's `s.trim()`: strip leading and trailing whitespace. -/
def jsTrim (s : String) : String :=
  ⟨((s.data.dropWhile isJsSpace).reverse.dropWhile isJsSpace).reverse⟩

/-! ## Data model: ADK events (source lines 218-266 and §6 of the spec) -/

/-- A `functionCall` part payload.  `args` is an opaque key/value bag; no
claim inspects it, it is merely carried through. -/
structure FunctionCall where
  name : String
  args : List (String × String) := []
deriving DecidableEq

/-- A product object exposed by a tool response.  `name`/`price` may be
absent (JS `undefined`). -/
structure Product where
  name : Option String := none
  price : Option Int := none
deriving DecidableEq

/-- The `response` object of a `functionResponse` part: it may expose a
`products` array and/or a singular `product`. -/
structure RespPayload where
  products : Option (List Product) := none
  product : Option Product := none
deriving DecidableEq

/-- A `functionResponse` part payload. -/
structure FunctionResponse where
  name : String
  response : Option RespPayload := none
deriving DecidableEq

/-- One element of `event.content.parts`. -/
structure EventPart where
  functionCall : Option FunctionCall := none
  functionResponse : Option FunctionResponse := none
  text : Option String := none
deriving DecidableEq

/-- The `content` object of an ADK event. -/
structure EventContent where
  parts : Option (List EventPart) := none
deriving DecidableEq

/-- A raw ADK server event.  `isPartial` models the JS field
`event.partial` (absent ⇒ false); `author`/`timestamp` are used when
replaying a recovered session's history. -/
structure ADKEvent where
  content : Option EventContent := none
  isPartial : Bool := false
  author : Option String := none
  timestamp : Option String := none
deriving DecidableEq

/-- `event?.content?.parts ?? []` (line 232). -/
def partsOf (e : ADKEvent) : List EventPart :=
  match e.content with
  | none => []
  | some c => c.parts.getD []

/-- The event categories of the source's `EventType` object (lines
219-226). -/
inductive EventType where
  | functionCall
  | functionResponse
  | text
  | textPartial
  | error
  | thinking
deriving DecidableEq

/-- The value returned by `parseEvent`: a category plus the fields the
source attaches for that category, and the raw event. -/
structure ParsedEvent where
  type : EventType
  name : Option String := none
  args : List (String × String) := []
  response : Option RespPayload := none
  text : Option String := none
  raw : ADKEvent
deriving DecidableEq

/-- The part-scanning loop of `parseEvent` (lines 234-263): the first part
carrying a function call, a function response, or non-blank text decides
the classification; a blank-text part falls through to the next part. -/
def parseParts (e : ADKEvent) : List EventPart → ParsedEvent
  | [] => { type := .thinking, raw := e }
  | p :: rest =>
    match p.functionCall with
    | some fc => { type := .functionCall, name := some fc.name, args := fc.args, raw := e }
    | none =>
      match p.functionResponse with
      | some fr => { type := .functionResponse, name := some fr.name, response := fr.response, raw := e }
      | none =>
        match p.text with
        | some t =>
          if jsTrim t ≠ "" then
            { type := if e.isPartial then .textPartial else .text, text := some (jsTrim t), raw := e }
          else parseParts e rest
        | none => parseParts e rest

/-- `parseEvent` (lines 231-266). -/
def parseEvent (e : ADKEvent) : ParsedEvent :=
  parseParts e (partsOf e)

/-- The loop body of `extractProducts` (lines 273-283): for a
function-response event push the payload's `products` array (when it is a
truthy array) and then its truthy singular `product`; any other event
leaves the accumulator alone. -/
def gatherStep (acc : List Product) (e : ParsedEvent) : List Product :=
  if e.type = .functionResponse then
    let acc :=
      match e.response with
      | some r => match r.products with
        | some ps => acc ++ ps
        | none => acc
      | none => acc
    match e.response with
    | some r => match r.product with
      | some p => acc ++ [p]
      | none => acc
    | none => acc
  else acc

/-- `extractProducts` (lines 271-285): walk the parsed events, from every
function-response payload push its `products` array and its singular
`product`, then keep the entries whose `name` and `price` are both truthy. -/
def extractProducts (events : List ParsedEvent) : List Product :=
  (events.foldl gatherStep []).filter
    (fun p => strTruthy p.name && intTruthy p.price)

/-! ## Stream reduction helpers (lines 536-598) -/

/-- One step of the `accumulatedText` / `setStreamingText` update (lines
561-564): a text or partial-text event replaces the buffer, anything else
leaves it. -/
def streamStep (acc : String) (e : ParsedEvent) : String :=
  if e.type = .textPartial ∨ e.type = .text then e.text.getD acc else acc

/-- The streaming-text buffer after reducing a whole event list, starting
from the cleared buffer (`setStreamingText('')`, line 500). -/
def streamText (events : List ADKEvent) : String :=
  (events.map parseEvent).foldl streamStep ""

/-- The transient live-activity entries of a turn (lines 555-558):
function-call and function-response events, in arrival order.  (The source
additionally stamps each entry with `Date.now()`; wall-clock stamps are
not modelled.) -/
def liveEntries (events : List ADKEvent) : List ParsedEvent :=
  (events.map parseEvent).filter
    (fun e => e.type = .functionCall ∨ e.type = .functionResponse)

/-- The candidate final message text of a turn (lines 574-577): the text of
the last text/partial-text event, else the accumulated buffer (which is
`""` exactly when there was no such event, absorbing the `|| ''`). -/
def finalTextOf (events : List ADKEvent) : String :=
  let textEvents := (events.map parseEvent).filter
    (fun e => e.type = .text ∨ e.type = .textPartial)
  match textEvents.getLast? with
  | some e => e.text.getD ""
  | none => streamText events

/-! ## Messages and hook state (lines 201-306) -/

/-- UI role of a message. -/
inductive Role where
  | user
  | agent
  | system
deriving DecidableEq

/-- A chat message.  User messages carry only `role`/`text`; agent messages
produced by a turn additionally carry `products`, `toolCalls` and the
parsed `events` of the turn (line 592-598). -/
structure Message where
  role : Role
  text : String
  author : Option String := none
  timestamp : Option String := none
  products : List Product := []
  toolCalls : List ParsedEvent := []
  events : List ParsedEvent := []
deriving DecidableEq

/-- The fixed welcome message (lines 213-216). -/
def WELCOME_MESSAGE : Message :=
  { role := .system,
    text := "Welcome to Gavigans! 🤖\n\nI'm your AI assistant powered by AiPRL Assist.\nHow can I help you today?" }

/-- The hook's status values (line 290). -/
inductive Status where
  | idle
  | loading
  | streaming
  | humanMode
  | recovering
deriving DecidableEq

/-- The reserved pause sentinel. -/
def AI_PAUSED_SENTINEL : String := "__AI_PAUSED__"

/-- `parseEventsToMessages`: the per-event joined text (lines 187-190) —
parts with truthy, non-blank text, trimmed and joined by a space. -/
def historyText (parts : List EventPart) : String :=
  String.intercalate " "
    ((parts.filter (fun p =>
        match p.text with
        | some t => t ≠ "" && jsTrim t ≠ ""
        | none => false)).map (fun p => jsTrim (p.text.getD "")))

/-- Author → role mapping of recovered history (lines 196-199): `user`,
`human_agent` and `system` map to the matching roles, anything else
defaults to `agent`. -/
def authorRole (author : Option String) : Role :=
  if author = some "user" then .user
  else if author = some "human_agent" then .agent
  else if author = some "system" then .system
  else .agent

/-- `parseEventsToMessages` (lines 180-210): decode a recovered session's
event history into messages, skipping events without parts, with blank
joined text, or whose text is the pause sentinel. -/
def parseEventsToMessages (events : List ADKEvent) : List Message :=
  events.filterMap (fun event =>
    match event.content with
    | none => none
    | some content =>
      match content.parts with
      | none => none
      | some parts =>
        let textParts := historyText parts
        if textParts = "" ∨ textParts = AI_PAUSED_SENTINEL then none
        else some { role := authorRole event.author, text := textParts,
                    author := event.author, timestamp := event.timestamp })

/-- The whole client-visible state of one hook instance: React state
(messages, liveEvents, status, streamingText, aiPaused, isRecovered), the
refs (`userIdRef`, `sessionIdRef`, `sessionCreatedRef`,
`sessionRecoveryAttempted`) and the durable `localStorage` session key
(`storedSessionId`; the user-id key is `userId` itself, which no modelled
operation rotates). -/
structure AppState where
  messages : List Message
  liveEvents : List ParsedEvent
  status : Status
  streamingText : String
  aiPaused : Bool
  isRecovered : Bool
  userId : String
  sessionId : Option String
  sessionCreated : Bool
  recoveryAttempted : Bool
  storedSessionId : Option String
deriving DecidableEq

/-- The state of a freshly mounted hook (lines 288-301): welcome message,
idle, refs seeded from storage (`getStoredSessionId`). -/
def initState (userId : String) (stored : Option String) : AppState :=
  { messages := [WELCOME_MESSAGE], liveEvents := [], status := .idle,
    streamingText := "", aiPaused := false, isRecovered := false,
    userId := userId, sessionId := stored, sessionCreated := false,
    recoveryAttempted := false, storedSessionId := stored }

/-! ## Sessions and the network oracle -/

/-- A server-side session as the client sees it: its id, the truthiness of
`state.ai_paused`, and its recorded event history. -/
structure Session where
  id : String
  aiPausedState : Bool := false
  events : List ADKEvent := []
deriving DecidableEq

/-- The network's answers for one page's requests.  Recovery lookups
(`GET .../sessions/{id}`) and creation POSTs are consumed in request
order; `none` (resp. `.error code`) is a not-found/failed response.
`runResponse` is the `/run_sse` reply: a status code error or the decoded
event list. -/
structure Network where
  recoverResponses : List (Option Session) := []
  createResponses : List (Except Nat Session) := []
  runResponse : Except Nat (List ADKEvent) := .error 500

/-- The state effects of `tryRecoverSession` (lines 368-411) once the
lookup's answer is known, and its return value.  A failed or not-found
lookup returns `none` (never an error: line 376-379 and the catch at
407-410).  A session with no events is returned untouched *before* the
`ai_paused` check (lines 384-387).  Otherwise recovered history, when
non-empty, replaces the message list with welcome + history, and a truthy
`state.ai_paused` sets the paused flag (lines 390-404). -/
def tryRecoverEffects (resp : Option Session) (s : AppState) :
    AppState × Option Session :=
  match resp with
  | none => (s, none)
  | some sess =>
    if sess.events.isEmpty then (s, some sess)
    else
      let recovered := parseEventsToMessages sess.events
      let s := if recovered ≠ [] then
          { s with messages := WELCOME_MESSAGE :: recovered, isRecovered := true }
        else s
      let s := if sess.aiPausedState then { s with aiPaused := true } else s
      (s, some sess)

/-! ## `ensureSession` (lines 413-483), split at its suspension points -/

/-- The result of a completed `ensureSession` call: a thrown error message
(`Failed to create session: <status>`, line 462) or the returned session
id (`sessionIdRef.current` may in principle be null at the recovery-return
read on line 431, hence `Option String`). -/
abbrev NegResult : Type := Except String (Option String)

deriving instance DecidableEq for Except

/-- What the synchronous prefix of `ensureSession` does before its first
suspension: return without any fetch, fire the recovery lookup, or fire
the creation POST. -/
inductive StartOut where
  | ret (r : NegResult) (s : AppState)
  | fetchRecover (s : AppState)
  | fetchCreate (s : AppState)

/-- Lines 414-423 and the fall-through to creation (lines 442-455): if a
session is already active in this page load, return its id; else, if the
recovery latch is unset and a stored session id is truthy, set the latch,
enter `recovering` and fire the lookup; else set the latch and fire the
creation POST. -/
def startSeg (s : AppState) : StartOut :=
  if s.sessionCreated ∧ strTruthy s.sessionId then .ret (.ok s.sessionId) s
  else if ¬s.recoveryAttempted ∧ strTruthy s.sessionId then
    .fetchRecover { s with recoveryAttempted := true, status := .recovering }
  else
    .fetchCreate { s with recoveryAttempted := true }

/-- What the segment after the recovery lookup does: return, or fire the
creation POST. -/
inductive RecoverOut where
  | ret (r : NegResult) (s : AppState)
  | fetchCreate (s : AppState)

/-- Lines 424-455: apply the recovery effects; on success mark the session
active, go idle and return the current `sessionIdRef`; on failure clear
the session ref and the stored id, go idle, and fall through to the
creation POST. -/
def resumeRecover (resp : Option Session) (s : AppState) : RecoverOut :=
  match tryRecoverEffects resp s with
  | (s1, some _) =>
    .ret (.ok s1.sessionId) { s1 with sessionCreated := true, status := .idle }
  | (s1, none) =>
    .fetchCreate { s1 with sessionId := none, storedSessionId := none, status := .idle }

/-- Lines 461-482: the segment after the creation POST resolves.  A failed
response throws; a successful one records the new id in the ref and in
durable storage and returns it. -/
def resumeCreate (resp : Except Nat Session) (s : AppState) : AppState × NegResult :=
  match resp with
  | .error code => (s, .error ("Failed to create session: " ++ toString code))
  | .ok sess =>
    ({ s with sessionId := some sess.id, sessionCreated := true,
              storedSessionId := some sess.id },
     .ok (some sess.id))

/-- The outcome of one sequential `ensureSession` call: final state, result,
and how many recovery lookups / creation POSTs it performed. -/
structure NegOut where
  st : AppState
  result : NegResult
  recFetches : Nat
  createFetches : Nat

/-- One `ensureSession` call running to completion with no interleaving:
the composition of the three segments, consuming the network's first
responses. -/
def ensureSessionSeq (net : Network) (s : AppState) : NegOut :=
  match startSeg s with
  | .ret r s1 => ⟨s1, r, 0, 0⟩
  | .fetchRecover s1 =>
    match resumeRecover (net.recoverResponses.getD 0 none) s1 with
    | .ret r s2 => ⟨s2, r, 1, 0⟩
    | .fetchCreate s2 =>
      let (s3, r) := resumeCreate (net.createResponses.getD 0 (.error 0)) s2
      ⟨s3, r, 1, 1⟩
  | .fetchCreate s1 =>
    let (s2, r) := resumeCreate (net.createResponses.getD 0 (.error 0)) s1
    ⟨s2, r, 0, 1⟩

/-! ## Overlapping `ensureSession` callers

JavaScript is single-threaded: an `async` function runs atomically between
its `await`s.  A caller is therefore a small program counter (`Proc`) over
the segments above, and any overlap of callers is a schedule choosing
which caller's next segment runs. -/

/-- The program counter of one `ensureSession` caller.  A suspended caller
remembers the response its in-flight request will resolve with. -/
inductive Proc where
  | ready
  | awaitRecover (resp : Option Session)
  | awaitCreate (resp : Except Nat Session)
  | finished (r : NegResult)
deriving DecidableEq

/-- A population of `ensureSession` callers over one shared hook state,
with counters of how many recovery lookups / creation POSTs have been
issued (they also index into the network's response lists). -/
structure Sys where
  st : AppState
  procs : List Proc
  recCount : Nat
  createCount : Nat

/-- Run caller `i`'s next segment (a no-op for an absent or finished
caller). -/
def sysStep (net : Network) (sys : Sys) (i : Nat) : Sys :=
  match sys.procs.get? i with
  | none => sys
  | some .ready =>
    match startSeg sys.st with
    | .ret r s1 => { sys with st := s1, procs := sys.procs.set i (.finished r) }
    | .fetchRecover s1 =>
      { sys with st := s1,
                 procs := sys.procs.set i
                   (.awaitRecover (net.recoverResponses.getD sys.recCount none)),
                 recCount := sys.recCount + 1 }
    | .fetchCreate s1 =>
      { sys with st := s1,
                 procs := sys.procs.set i
                   (.awaitCreate (net.createResponses.getD sys.createCount (.error 0))),
                 createCount := sys.createCount + 1 }
  | some (.awaitRecover resp) =>
    match resumeRecover resp sys.st with
    | .ret r s1 => { sys with st := s1, procs := sys.procs.set i (.finished r) }
    | .fetchCreate s1 =>
      { sys with st := s1,
                 procs := sys.procs.set i
                   (.awaitCreate (net.createResponses.getD sys.createCount (.error 0))),
                 createCount := sys.createCount + 1 }
  | some (.awaitCreate resp) =>
    let (s1, r) := resumeCreate resp sys.st
    { sys with st := s1, procs := sys.procs.set i (.finished r) }
  | some (.finished _) => sys

/-- Run a whole schedule of caller steps. -/
def sysRun (net : Network) (sys : Sys) (sched : List Nat) : Sys :=
  sched.foldl (sysStep net) sys

/-! ## `sendMessage` (lines 485-617)

The closure captures `status` and `aiPaused` from the render that created
it (its `useCallback` dependency list, line 617); `setStatus`/`setAiPaused`
update the hook state but never the captured constants.  The model
therefore reads the guard, the display-mode choice and the `finally` check
from the state *at entry* (`status0`, `aiPaused0`) while the updates land
in the threaded state — exactly the stale-closure semantics of the source.
The creation POST body (initial state from launch parameters, lines
444-459) has no client-visible state effect and is not modelled. -/

/-- The error message appended by the catch block (lines 600-606). -/
def errorMessage (msg : String) : Message :=
  { role := .agent,
    text := "❌ Error: " ++ msg ++ ". Please check if the server is running." }

/-- The `finally` block (lines 607-616): status goes back to idle unless
the *captured* paused flag was set, and the transient buffers are
cleared. -/
def finallyStep (aiPaused0 : Bool) (s : AppState) : AppState :=
  { s with status := if ¬aiPaused0 then .idle else .humanMode,
           liveEvents := [], streamingText := "" }

/-- One complete `sendMessage(text)` turn whose network behaviour is
`net`.  Mirrors lines 485-617: guard, optimistic user message, display
mode, buffer clear, session negotiation, stream reduction, finalization,
error handling and the `finally` block.  (The `AbortError` path is the
only part not modelled: no claim concerns cancellation.) -/
def sendMessageModel (net : Network) (text : String) (s0 : AppState) : AppState :=
  let status0 := s0.status
  let aiPaused0 := s0.aiPaused
  if jsTrim text = "" ∨ (status0 ≠ .idle ∧ status0 ≠ .humanMode) then s0
  else
    let s1 : AppState :=
      { s0 with messages := s0.messages ++ [{ role := .user, text := jsTrim text }],
                status := if aiPaused0 then .humanMode else .loading,
                liveEvents := [], streamingText := "" }
    let out := ensureSessionSeq net s1
    match out.result with
    | .error msg => finallyStep aiPaused0
        { out.st with messages := out.st.messages ++ [errorMessage msg] }
    | .ok _ =>
      match net.runResponse with
      | .error code => finallyStep aiPaused0
          { out.st with messages := out.st.messages ++
              [errorMessage ("API error " ++ toString code)] }
      | .ok events =>
        let s3 := { out.st with status := .streaming }
        let allEvents := events.map parseEvent
        let s4 := { s3 with liveEvents := s3.liveEvents ++ liveEntries events,
                            streamingText := allEvents.foldl streamStep s3.streamingText }
        let finalText := finalTextOf events
        if finalText = AI_PAUSED_SENTINEL ∨ jsTrim finalText = "" then
          finallyStep aiPaused0 { s4 with aiPaused := true, status := .humanMode }
        else
          finallyStep aiPaused0
            { s4 with messages := s4.messages ++
                [{ role := .agent, text := finalText,
                   products := extractProducts allEvents,
                   toolCalls := allEvents.filter (fun e => e.type = .functionCall),
                   events := allEvents }] }

/-! ## Inbound listener and reset (lines 307-362, 619-649) -/

/-- A decoded payload of the inbound `/api/inbox/listen` channel.  The
source reads `data.type`, `data.content`, `data.author`, `data.timestamp`,
`data.ai_paused` and `data.message`. -/
structure InboxData where
  type : String
  content : Option String := none
  author : Option String := none
  timestamp : Option String := none
  ai_paused : Bool := false
  message : Option String := none

/-- The `onmessage` handler of the inbound subscription (lines 320-353)
for a payload that parsed: a `new_message` appends an agent message; an
`ai_status_changed` sets the paused flag and, when a truthy status text is
attached, appends it as a system message (its timestamp is the current
wall clock, modelled as absent); anything else is ignored. -/
def onInboundEvent (d : InboxData) (s : AppState) : AppState :=
  let s :=
    if d.type = "new_message" then
      { s with messages := s.messages ++
          [{ role := .agent, text := d.content.getD "", author := d.author,
             timestamp := d.timestamp }] }
    else s
  if d.type = "ai_status_changed" then
    let s := { s with aiPaused := d.ai_paused }
    if strTruthy d.message then
      { s with messages := s.messages ++
          [{ role := .system, text := d.message.getD "" }] }
    else s
  else s

/-- `reset` (lines 619-649): back to the single welcome message and idle,
all session refs and the stored session id cleared, the recovery latch
re-armed; `userId` (ref and stored) untouched. -/
def resetModel (s : AppState) : AppState :=
  { s with messages := [WELCOME_MESSAGE], liveEvents := [], streamingText := "",
           status := .idle, aiPaused := false, isRecovered := false,
           sessionId := none, sessionCreated := false,
           recoveryAttempted := false, storedSessionId := none }

/-! ## Identity resolver (lines 41-95) -/

/-- ToInt32: reduce an integer to the 32-bit two's-complement range, as
JavaScript's `<<` and `&` do. -/
def toInt32 (n : Int) : Int := (n + 2 ^ 31) % 2 ^ 32 - 2 ^ 31

/-- One iteration of the `hashEmail` loop (lines 52-56):
`hash = ((hash << 5) - hash) + char` followed by `hash = hash & hash`.
`hash << 5` wraps to 32 bits; the subtraction and the character addition
are exact (they stay far below 2^53); `hash & hash` wraps the sum back to
32 bits. -/
def hashStep (hash : Int) (c : Nat) : Int :=
  toInt32 (toInt32 (hash * 32) - hash + c)

/-- The 32-bit hash accumulated over the email's characters.  `charCodeAt`
yields the UTF-16 code unit, which equals the character's code point for
every basic-plane character (`Char.toNat` here). -/
def hashVal (email : String) : Int :=
  email.data.foldl (fun h c => hashStep h c.toNat) 0

/-- A base-36 digit as JavaScript's `Number.toString(36)` writes it:
`0`-`9` then `a`-`z`. -/
def digit36 (d : Nat) : Char :=
  if d < 10 then Char.ofNat (48 + d) else Char.ofNat (87 + d)

/-- Base-36 digit list of `n`, most significant first; fuelled structural
recursion so concrete values reduce in the kernel (`n + 1` fuel always
suffices since `n / 36 < n` for `n ≥ 36`). -/
def toString36Aux : Nat → Nat → List Char
  | 0, _ => []
  | fuel + 1, n =>
    if n < 36 then [digit36 n]
    else toString36Aux fuel (n / 36) ++ [digit36 (n % 36)]

/-- JavaScript's `n.toString(36)` for a natural number. -/
def toString36 (n : Nat) : String := ⟨toString36Aux (n + 1) n⟩

/-- `hashEmail` (lines 50-58): `user_` + base-36 rendering of the absolute
value of the 32-bit hash. -/
def hashEmail (email : String) : String :=
  "user_" ++ toString36 (hashVal email).natAbs

/-- `getPersistentUserId` (lines 71-95) as a function of the
`customer_email` launch parameter, the stored user id, and the id that
`randomId('user')` would mint; returns the resolved id and the resulting
stored value.  A truthy email wins and overwrites storage; else a truthy
stored id is reused; else the fresh id is stored. -/
def getPersistentUserId (customerEmail : Option String) (stored : Option String)
    (freshId : String) : String × Option String :=
  if strTruthy customerEmail then
    let userId := hashEmail (customerEmail.getD "")
    (userId, some userId)
  else if strTruthy stored then
    (stored.getD "", stored)
  else
    (freshId, some freshId)

/-! ## Classification lemmas (claims about `parseEvent`) -/

/-- A part the classifier does not skip: it carries a function call, a
function response, or text that is non-blank after trimming.  (Spec side,
for the first-part-wins characterisation.) -/
def classifiablePart (p : EventPart) : Bool :=
  p.functionCall.isSome || p.functionResponse.isSome ||
    (match p.text with
     | some t => jsTrim t ≠ ""
     | none => false)

/-- Classification as the spec sentence describes it once corrected for
part order: the FIRST part carrying a function call, a function response,
or non-blank text decides the category, with the precedence
function-call > function-response > text applying WITHIN that part; a text
part yields `textPartial` when the event is marked partial. -/
def specClassifyType (e : ADKEvent) : EventType :=
  match (partsOf e).find? classifiablePart with
  | none => .thinking
  | some p =>
    if p.functionCall.isSome then .functionCall
    else if p.functionResponse.isSome then .functionResponse
    else if e.isPartial then .textPartial else .text

lemma parseParts_type_eq_spec (e : ADKEvent) (ps : List EventPart) :
    (parseParts e ps).type =
      (match ps.find? classifiablePart with
       | none => .thinking
       | some p =>
         if p.functionCall.isSome then .functionCall
         else if p.functionResponse.isSome then .functionResponse
         else if e.isPartial then .textPartial else .text) := by
  induction ps with
  | nil => rfl
  | cons p rest ih =>
    rcases hfc : p.functionCall with _ | fc
    · rcases hfr : p.functionResponse with _ | fr
      · rcases ht : p.text with _ | t
        · have hcl : classifiablePart p = false := by
            simp [classifiablePart, hfc, hfr, ht]
          rw [List.find?_cons_of_neg _ (by simp [hcl])]
          simpa [parseParts, hfc, hfr, ht] using ih
        · by_cases htr : jsTrim t = ""
          · have hcl : classifiablePart p = false := by
              simp [classifiablePart, hfc, hfr, ht, htr]
            rw [List.find?_cons_of_neg _ (by simp [hcl])]
            simpa [parseParts, hfc, hfr, ht, htr] using ih
          · have hcl : classifiablePart p = true := by
              simp [classifiablePart, hfc, hfr, ht, htr]
            rw [List.find?_cons_of_pos _ (by simp [hcl])]
            simp [parseParts, hfc, hfr, ht, htr]
      · have hcl : classifiablePart p = true := by
          simp [classifiablePart, hfr]
        rw [List.find?_cons_of_pos _ (by simp [hcl])]
        simp [parseParts, hfc, hfr]
    · have hcl : classifiablePart p = true := by
        simp [classifiablePart, hfc]
      rw [List.find?_cons_of_pos _ (by simp [hcl])]
      simp [parseParts, hfc]

/-- C3, counterexample: a payload whose first part carries non-empty text
and whose second part carries a function call is classified `text`, not
`function_call` — the claimed payload-wide precedence does not hold across
parts. -/
theorem parseEvent_cross_part_precedence_fails :
    (parseEvent { content := some { parts := some [
        { text := some "hi" },
        { functionCall := some { name := "f" } }] } }).type = EventType.text ∧
    EventType.text ≠ EventType.functionCall := by
  decide

/-- C3, amended: within a single event payload the classifier scans the
parts in order; the first part carrying a function call, a function
response, or non-blank text decides the category, with the precedence
function-call > function-response > non-empty text applying within that
part (text becoming `text_partial` when the event is marked partial), and
`thinking` when no part qualifies. -/
theorem parseEvent_first_part_precedence (e : ADKEvent) :
    (parseEvent e).type = specClassifyType e := by
  rw [parseEvent, specClassifyType, parseParts_type_eq_spec]

/-! ## Totality of classification and blank-text behaviour (C10) -/

lemma parseParts_type_cases (e : ADKEvent) (ps : List EventPart) :
    (parseParts e ps).type = .functionCall ∨ (parseParts e ps).type = .functionResponse ∨
    (parseParts e ps).type = .text ∨ (parseParts e ps).type = .textPartial ∨
    (parseParts e ps).type = .thinking := by
  induction ps with
  | nil => simp [parseParts]
  | cons p rest ih =>
    rcases hfc : p.functionCall with _ | fc
    · rcases hfr : p.functionResponse with _ | fr
      · rcases ht : p.text with _ | t
        · simpa [parseParts, hfc, hfr, ht] using ih
        · by_cases htr : jsTrim t = ""
          · simpa [parseParts, hfc, hfr, ht, htr] using ih
          · by_cases hp : e.isPartial <;> simp [parseParts, hfc, hfr, ht, htr, hp]
      · simp [parseParts, hfc, hfr]
    · simp [parseParts, hfc]

lemma parseParts_textish (e : ADKEvent) (ps : List EventPart)
    (h : (parseParts e ps).type = .text ∨ (parseParts e ps).type = .textPartial) :
    ∃ u, (parseParts e ps).text = some (jsTrim u) ∧ jsTrim u ≠ "" := by
  induction ps with
  | nil => simp [parseParts] at h
  | cons p rest ih =>
    rcases hfc : p.functionCall with _ | fc
    · rcases hfr : p.functionResponse with _ | fr
      · rcases ht : p.text with _ | t
        · rw [parseParts, hfc, hfr, ht] at h ⊢
          exact ih h
        · by_cases htr : jsTrim t = ""
          · simp only [parseParts, hfc, hfr, ht, htr] at h ⊢
            simp only [ne_eq, not_true_eq_false, if_false] at h ⊢
            exact ih h
          · refine ⟨t, ?_, htr⟩
            simp [parseParts, hfc, hfr, ht, htr]
      · simp [parseParts, hfc, hfr] at h
    · simp [parseParts, hfc] at h

/-- Text attached to a `text`/`text_partial` classification is some
trimmed, non-blank string. -/
lemma parseEvent_textish (e : ADKEvent)
    (h : (parseEvent e).type = .text ∨ (parseEvent e).type = .textPartial) :
    ∃ u, (parseEvent e).text = some (jsTrim u) ∧ jsTrim u ≠ "" :=
  parseParts_textish e (partsOf e) h

lemma parseParts_all_blank (e : ADKEvent) (ps : List EventPart)
    (h : ∀ p ∈ ps, p.functionCall = none ∧ p.functionResponse = none ∧
          ∀ t, p.text = some t → jsTrim t = "") :
    parseParts e ps = { type := .thinking, raw := e } := by
  induction ps with
  | nil => rfl
  | cons p rest ih =>
    obtain ⟨hfc, hfr, ht⟩ := h p (List.mem_cons_self p rest)
    have hrest : ∀ q ∈ rest, q.functionCall = none ∧ q.functionResponse = none ∧
        ∀ t, q.text = some t → jsTrim t = "" :=
      fun q hq => h q (List.mem_cons_of_mem p hq)
    rcases hpt : p.text with _ | t
    · rw [parseParts, hfc, hfr, hpt]
      exact ih hrest
    · have htr := ht t hpt
      simp only [parseParts, hfc, hfr, hpt, htr, ne_eq, not_true_eq_false, if_false]
      exact ih hrest

/-- C10: classification is total — every event lands in exactly one of the
five live categories (never `error`, never a failure); a `text`/
`text_partial` result always carries non-blank trimmed text; and an event
all of whose parts are blank (no calls, no responses, empty or
whitespace-only text) is classified `thinking` and leaves any
streaming-text buffer untouched. -/
theorem parseEvent_total_and_blank_safe (e : ADKEvent) :
    ((parseEvent e).type = .functionCall ∨ (parseEvent e).type = .functionResponse ∨
     (parseEvent e).type = .text ∨ (parseEvent e).type = .textPartial ∨
     (parseEvent e).type = .thinking) ∧
    ((parseEvent e).type = .text ∨ (parseEvent e).type = .textPartial →
      ∃ u, (parseEvent e).text = some (jsTrim u) ∧ jsTrim u ≠ "") ∧
    ((∀ p ∈ partsOf e, p.functionCall = none ∧ p.functionResponse = none ∧
        ∀ t, p.text = some t → jsTrim t = "") →
      (parseEvent e).type = .thinking ∧ ∀ buf, streamStep buf (parseEvent e) = buf) := by
  refine ⟨parseParts_type_cases e (partsOf e), parseEvent_textish e, fun h => ?_⟩
  have hthink := parseParts_all_blank e (partsOf e) h
  rw [parseEvent, hthink]
  exact ⟨rfl, fun buf => by simp [streamStep]⟩

/-- Witness for C10 at a concrete whitespace-only event. -/
theorem parseEvent_total_and_blank_safe_witness :
    (parseEvent { content := some { parts := some [{ text := some "   " }] } }).type
        = .thinking ∧
    streamStep "keep"
        (parseEvent { content := some { parts := some [{ text := some "   " }] } })
      = "keep" := by
  have hb : ∀ p ∈ ([{ text := some "   " }] : List EventPart),
      p.functionCall = none ∧ p.functionResponse = none ∧
        ∀ t, p.text = some t → jsTrim t = "" := by
    intro p hp
    simp only [List.mem_singleton] at hp
    subst hp
    refine ⟨rfl, rfl, fun t ht => ?_⟩
    injection ht with h'
    rw [← h']
    decide
  have h := parseEvent_total_and_blank_safe
    { content := some { parts := some [{ text := some "   " }] } }
  exact ⟨(h.2.2 hb).1, (h.2.2 hb).2 "keep"⟩

/-! ## Deterministic identity resolution (C6) -/

/-- C6: for a non-empty authenticated email in the launch parameters, the
resolved user id is `user_` followed by the base-36 rendering of a hash
computed only from the email's characters; it is therefore identical
across page loads — whatever was previously stored (including nothing,
i.e. cleared session storage) — and the stored id is overwritten with it
on every call. -/
theorem email_identity_deterministic (e : String) (he : e ≠ "")
    (stored stored' : Option String) (freshId freshId' : String) :
    (getPersistentUserId (some e) stored freshId).1 = hashEmail e ∧
    (getPersistentUserId (some e) stored freshId).2 = some (hashEmail e) ∧
    hashEmail e = "user_" ++ toString36 (hashVal e).natAbs ∧
    (getPersistentUserId (some e) stored freshId).1
      = (getPersistentUserId (some e) stored' freshId').1 := by
  simp [getPersistentUserId, strTruthy, he, hashEmail]

set_option maxRecDepth 8192 in
/-- Witness for C6: the email `a@b.c` resolves to the same concrete id with
populated and with cleared storage alike. -/
theorem email_identity_deterministic_witness :
    ("a@b.c" : String) ≠ "" ∧
    (getPersistentUserId (some "a@b.c") (some "user_old") "user_fresh").1
      = "user_1iiyk8" ∧
    (getPersistentUserId (some "a@b.c") none "user_other").1 = "user_1iiyk8" :=
  have h := email_identity_deterministic "a@b.c" (by decide)
    (some "user_old") none "user_fresh" "user_other"
  ⟨by decide, by rw [h.1]; decide, by rw [← h.2.2.2, h.1]; decide⟩

/-! ## Trimming facts -/

lemma dropWhile_all {α : Type} (p : α → Bool) (l : List α)
    (h : ∀ x ∈ List.dropWhile p l, p x = true) : ∀ x ∈ l, p x = true := by
  induction l with
  | nil => simp
  | cons a l ih =>
    intro x hx
    by_cases hpa : p a = true
    · rw [List.dropWhile_cons_of_pos hpa] at h
      rcases List.mem_cons.1 hx with rfl | hx'
      · exact hpa
      · exact ih h x hx'
    · rw [List.dropWhile_cons_of_neg hpa] at h
      exact h x hx

lemma jsTrim_eq_empty_of_all (s : String)
    (h : ∀ c ∈ s.data, isJsSpace c = true) : jsTrim s = "" := by
  have h1 : s.data.dropWhile isJsSpace = [] := List.dropWhile_eq_nil_iff.2 h
  simp [jsTrim, h1]

lemma all_space_of_jsTrim_eq_empty (s : String) (h : jsTrim s = "") :
    ∀ c ∈ s.data, isJsSpace c = true := by
  have hdata : (((s.data.dropWhile isJsSpace).reverse.dropWhile isJsSpace).reverse)
      = [] := congrArg String.data h
  rw [List.reverse_eq_nil_iff] at hdata
  have h2 : ∀ c ∈ (s.data.dropWhile isJsSpace).reverse, isJsSpace c = true :=
    dropWhile_all _ _ (by rw [hdata]; simp)
  have h3 : ∀ c ∈ s.data.dropWhile isJsSpace, isJsSpace c = true :=
    fun c hc => h2 c (List.mem_reverse.2 hc)
  exact dropWhile_all _ _ h3

/-- Trimming an already-trimmed non-blank string keeps it non-blank. -/
lemma jsTrim_jsTrim_ne (u : String) (h : jsTrim u ≠ "") :
    jsTrim (jsTrim u) ≠ "" := by
  intro hc
  have h1 : ∀ c ∈ (jsTrim u).data, isJsSpace c = true :=
    all_space_of_jsTrim_eq_empty _ hc
  have h2 : ∀ c ∈ u.data, isJsSpace c = true := by
    have h3 : ∀ c ∈ (u.data.dropWhile isJsSpace).reverse.dropWhile isJsSpace,
        isJsSpace c = true := by
      intro c hcmem
      exact h1 c (List.mem_reverse.2 hcmem)
    have h4 : ∀ c ∈ (u.data.dropWhile isJsSpace).reverse, isJsSpace c = true :=
      dropWhile_all _ _ h3
    have h5 : ∀ c ∈ u.data.dropWhile isJsSpace, isJsSpace c = true :=
      fun c hcm => h4 c (List.mem_reverse.2 hcm)
    exact dropWhile_all _ _ h5
  exact h (jsTrim_eq_empty_of_all u h2)

/-! ## The successful turn (C1, C8) -/

lemma ensureSessionSeq_created (net : Network) (s : AppState)
    (h1 : s.sessionCreated = true) (h2 : strTruthy s.sessionId = true) :
    ensureSessionSeq net s = ⟨s, .ok s.sessionId, 0, 0⟩ := by
  rw [ensureSessionSeq, startSeg, if_pos (by exact ⟨h1, h2⟩)]

/-- Shape of a turn that reaches the stream with an active session and
finishes with a displayable final text: the user message and exactly one
agent message are appended, the agent message carrying the final text, the
extracted products, the function-call events as tool calls, and the parsed
event sequence; the transient buffers end cleared and the status follows
the captured paused flag. -/
lemma sendMessage_success (net : Network) (text : String) (s : AppState)
    (events : List ADKEvent)
    (hcr : s.sessionCreated = true) (hsid : strTruthy s.sessionId = true)
    (hstatus : s.status = .idle ∨ s.status = .humanMode)
    (htext : jsTrim text ≠ "")
    (hrun : net.runResponse = .ok events)
    (hfinal : ¬(finalTextOf events = AI_PAUSED_SENTINEL ∨ jsTrim (finalTextOf events) = "")) :
    sendMessageModel net text s =
      { s with
        messages := s.messages ++
          [{ role := .user, text := jsTrim text },
           { role := .agent, text := finalTextOf events,
             products := extractProducts (events.map parseEvent),
             toolCalls := (events.map parseEvent).filter (fun e => e.type = .functionCall),
             events := events.map parseEvent }],
        status := if ¬s.aiPaused then .idle else .humanMode,
        liveEvents := [], streamingText := "" } := by
  have hguard : ¬(jsTrim text = "" ∨ (s.status ≠ .idle ∧ s.status ≠ .humanMode)) := by
    rcases hstatus with h | h <;> simp [htext, h]
  rw [sendMessageModel, if_neg hguard]
  simp only [ensureSessionSeq_created, hcr, hsid, hrun, if_neg hfinal]
  simp [finallyStep, List.append_assoc]

/-! ## Concrete fixtures shared by the closed theorems below -/

/-- A page state with an active negotiated session, as it is after a
successful `ensureSession`. -/
def readyState : AppState :=
  { initState "user_demo" (some "sess_1") with sessionCreated := true }

/-- An event whose single part carries a function call. -/
def fcEvent (name : String) : ADKEvent :=
  { content := some { parts := some [{ functionCall := some { name := name } }] } }

/-- A partial streaming text chunk. -/
def partialTextEvent (t : String) : ADKEvent :=
  { content := some { parts := some [{ text := some t }] }, isPartial := true }

/-- A final (non-partial) text event. -/
def textEvent (t : String) : ADKEvent :=
  { content := some { parts := some [{ text := some t }] } }

/-- C1, amended: for a turn whose stream is one function-call event, three
partial-text events and one final (non-partial) text event, *provided the
final event's (trimmed) text is not the reserved pause sentinel*, the
reduction appends exactly one agent Message after the user's, whose text
equals the final text event's text as classified (the classifier trims
it), and records exactly one live-activity entry — the function call; the
streaming-text buffer after each partial equals that partial's text alone
(replace, not append). -/
theorem stream_reduction_single_message
    (net : Network) (s : AppState) (msg : String)
    (e0 p1 p2 p3 f : ADKEvent) (t1 t2 t3 t : String)
    (hcr : s.sessionCreated = true) (hsid : strTruthy s.sessionId = true)
    (hstatus : s.status = .idle ∨ s.status = .humanMode)
    (hmsg : jsTrim msg ≠ "")
    (h0 : (parseEvent e0).type = .functionCall)
    (h1 : (parseEvent p1).type = .textPartial) (h1t : (parseEvent p1).text = some t1)
    (h2 : (parseEvent p2).type = .textPartial) (h2t : (parseEvent p2).text = some t2)
    (h3 : (parseEvent p3).type = .textPartial) (h3t : (parseEvent p3).text = some t3)
    (hf : (parseEvent f).type = .text) (hft : (parseEvent f).text = some t)
    (hrun : net.runResponse = .ok [e0, p1, p2, p3, f])
    (hsent : t ≠ AI_PAUSED_SENTINEL) :
    (∃ m, (sendMessageModel net msg s).messages
        = s.messages ++ [{ role := .user, text := jsTrim msg }, m] ∧
      m.role = .agent ∧ m.text = t) ∧
    liveEntries [e0, p1, p2, p3, f] = [parseEvent e0] ∧
    streamText [e0, p1] = t1 ∧ streamText [e0, p1, p2] = t2 ∧
    streamText [e0, p1, p2, p3] = t3 := by
  have htrim : jsTrim t ≠ "" := by
    obtain ⟨u, hu, hune⟩ := parseEvent_textish f (Or.inl hf)
    rw [hft] at hu
    injection hu with hu'
    rw [hu']
    exact jsTrim_jsTrim_ne u hune
  have hfin : finalTextOf [e0, p1, p2, p3, f] = t := by
    simp [finalTextOf, h0, h1, h2, h3, hf, hft]
  have hfinal : ¬(finalTextOf [e0, p1, p2, p3, f] = AI_PAUSED_SENTINEL ∨
      jsTrim (finalTextOf [e0, p1, p2, p3, f]) = "") := by
    rw [hfin]
    rintro (hx | hx)
    · exact hsent hx
    · exact htrim hx
  have hmain := sendMessage_success net msg s _ hcr hsid hstatus hmsg hrun hfinal
  refine ⟨⟨{ role := .agent, text := finalTextOf [e0, p1, p2, p3, f],
             products := extractProducts ([e0, p1, p2, p3, f].map parseEvent),
             toolCalls := ([e0, p1, p2, p3, f].map parseEvent).filter
               (fun e => e.type = .functionCall),
             events := [e0, p1, p2, p3, f].map parseEvent },
          by rw [hmain], rfl, hfin⟩, ?_, ?_, ?_, ?_⟩
  · simp [liveEntries, h0, h1, h2, h3, hf]
  · simp [streamText, streamStep, h0, h1, h1t]
  · simp [streamText, streamStep, h0, h1, h1t, h2, h2t]
  · simp [streamText, streamStep, h0, h1, h1t, h2, h2t, h3, h3t]

set_option maxRecDepth 100000 in
/-- C1, counterexample to the claim as stated: this stream has exactly the
claimed shape — one function-call event, three partial-text events, one
final non-partial text event — yet, its final text being the pause
sentinel, the reduction appends *no* agent Message at all. -/
theorem stream_reduction_sentinel_counterexample :
    ((parseEvent (fcEvent "f")).type = .functionCall ∧
     (parseEvent (partialTextEvent "a")).type = .textPartial ∧
     (parseEvent (partialTextEvent "ab")).type = .textPartial ∧
     (parseEvent (partialTextEvent "abc")).type = .textPartial ∧
     (parseEvent (textEvent "__AI_PAUSED__")).type = .text) ∧
    (sendMessageModel { runResponse := .ok [fcEvent "f", partialTextEvent "a",
        partialTextEvent "ab", partialTextEvent "abc", textEvent "__AI_PAUSED__"] }
        "hello" readyState).messages
      = readyState.messages ++ [{ role := .user, text := "hello" }] := by
  decide

set_option maxRecDepth 100000 in
/-- Witness for C1 at a concrete five-event stream. -/
theorem stream_reduction_single_message_witness :
    jsTrim "show sofas" ≠ "" ∧
    ((∃ m, (sendMessageModel { runResponse := .ok [fcEvent "search_products",
          partialTextEvent "Here", partialTextEvent "Here are",
          partialTextEvent "Here are some", textEvent "Here are some options"] }
          "show sofas" readyState).messages
        = readyState.messages ++
            [{ role := .user, text := jsTrim "show sofas" }, m] ∧
      m.role = .agent ∧ m.text = "Here are some options") ∧
    liveEntries [fcEvent "search_products", partialTextEvent "Here",
        partialTextEvent "Here are", partialTextEvent "Here are some",
        textEvent "Here are some options"]
      = [parseEvent (fcEvent "search_products")] ∧
    streamText [fcEvent "search_products", partialTextEvent "Here"] = "Here" ∧
    streamText [fcEvent "search_products", partialTextEvent "Here",
        partialTextEvent "Here are"] = "Here are" ∧
    streamText [fcEvent "search_products", partialTextEvent "Here",
        partialTextEvent "Here are", partialTextEvent "Here are some"]
      = "Here are some") :=
  ⟨by decide,
   stream_reduction_single_message _ _ _ _ _ _ _ _ _ _ _ _ (by decide) (by decide)
     (Or.inl (by decide)) (by decide) (by decide) (by decide) (by decide)
     (by decide) (by decide) (by decide) (by decide) (by decide) (by decide)
     rfl (by decide)⟩

set_option maxRecDepth 100000 in
/-- C2: evaluation at the failing input.  With the AI not yet paused and an
active session, a stream whose only content is the pause sentinel appends
no agent Message and sets the paused flag — but the turn ends with status
`idle`, not `human_mode`: the `finally` block (line 609) tests the
`aiPaused` *captured by the closure at render time* (still `false`), so
its `setStatus('idle')` overrides the `setStatus('human_mode')` of line
583, contradicting the source's own comments ("Set status to human mode",
"Keep human_mode if AI is paused"). -/
theorem pause_sentinel_status_bug :
    readyState.aiPaused = false ∧ readyState.status = .idle ∧
    (sendMessageModel { runResponse := .ok [textEvent "__AI_PAUSED__"] }
        "hello" readyState).messages
      = readyState.messages ++ [{ role := .user, text := "hello" }] ∧
    (sendMessageModel { runResponse := .ok [textEvent "__AI_PAUSED__"] }
        "hello" readyState).aiPaused = true ∧
    (sendMessageModel { runResponse := .ok [textEvent "__AI_PAUSED__"] }
        "hello" readyState).status = .idle ∧
    Status.idle ≠ Status.humanMode := by
  decide

/-! ## The recovery latch under arbitrary interleavings (C4, C5) -/

lemma tryRecoverEffects_fields (resp : Option Session) (s : AppState) :
    (tryRecoverEffects resp s).1.recoveryAttempted = s.recoveryAttempted ∧
    (tryRecoverEffects resp s).1.sessionCreated = s.sessionCreated ∧
    (tryRecoverEffects resp s).1.sessionId = s.sessionId := by
  rcases resp with _ | sess
  · exact ⟨rfl, rfl, rfl⟩
  · simp only [tryRecoverEffects]
    split_ifs <;> exact ⟨rfl, rfl, rfl⟩

lemma startSeg_ret {s : AppState} {r : NegResult} {s1 : AppState}
    (h : startSeg s = .ret r s1) :
    s1 = s ∧ r = .ok s.sessionId ∧ s.sessionCreated = true := by
  rw [startSeg] at h
  split_ifs at h with h1
  all_goals first
    | exact StartOut.noConfusion h
    | (injection h with ha hb; exact ⟨hb.symm, ha.symm, h1.1⟩)

lemma startSeg_fetchRecover {s s1 : AppState}
    (h : startSeg s = .fetchRecover s1) :
    s.recoveryAttempted = false ∧
    s1 = { s with recoveryAttempted := true, status := .recovering } := by
  rw [startSeg] at h
  split_ifs at h with h1 h2
  all_goals first
    | exact StartOut.noConfusion h
    | (injection h with h'; exact ⟨by simpa using h2.1, h'.symm⟩)

lemma startSeg_fetchCreate {s s1 : AppState}
    (h : startSeg s = .fetchCreate s1) :
    s1 = { s with recoveryAttempted := true } := by
  rw [startSeg] at h
  split_ifs at h
  all_goals first
    | exact StartOut.noConfusion h
    | (injection h with h'; exact h'.symm)

lemma resumeRecover_ret_attempted {resp : Option Session} {s : AppState}
    {r : NegResult} {s1 : AppState} (h : resumeRecover resp s = .ret r s1) :
    s1.recoveryAttempted = s.recoveryAttempted := by
  rw [resumeRecover] at h
  rcases htr : tryRecoverEffects resp s with ⟨s', res⟩
  rw [htr] at h
  rcases res with _ | sess
  · exact RecoverOut.noConfusion h
  · injection h with h1 h2
    rw [← h2]
    have hf : s'.recoveryAttempted = s.recoveryAttempted := by
      have := (tryRecoverEffects_fields resp s).1
      rw [htr] at this
      exact this
    exact hf

lemma resumeRecover_fetchCreate_attempted {resp : Option Session} {s : AppState}
    {s1 : AppState} (h : resumeRecover resp s = .fetchCreate s1) :
    s1.recoveryAttempted = s.recoveryAttempted := by
  rw [resumeRecover] at h
  rcases htr : tryRecoverEffects resp s with ⟨s', res⟩
  rw [htr] at h
  rcases res with _ | sess
  · injection h with h1
    rw [← h1]
    have hf : s'.recoveryAttempted = s.recoveryAttempted := by
      have := (tryRecoverEffects_fields resp s).1
      rw [htr] at this
      exact this
    exact hf
  · exact RecoverOut.noConfusion h

lemma resumeCreate_attempted (resp : Except Nat Session) (s : AppState) :
    (resumeCreate resp s).1.recoveryAttempted = s.recoveryAttempted := by
  rcases resp <;> rfl

/-- The latch invariant: at most one recovery fetch ever happens, and none
has happened while the latch is still unset. -/
def sysInv (sys : Sys) : Prop :=
  sys.recCount ≤ 1 ∧ (sys.st.recoveryAttempted = false → sys.recCount = 0)

lemma sysStep_inv (net : Network) (sys : Sys) (i : Nat) (h : sysInv sys) :
    sysInv (sysStep net sys i) := by
  obtain ⟨hle, h0⟩ := h
  unfold sysStep
  split
  · exact ⟨hle, h0⟩
  · split
    · rename_i r s1 hss
      obtain ⟨he, _, _⟩ := startSeg_ret hss
      exact ⟨hle, fun hf => h0 (by rw [← he]; exact hf)⟩
    · rename_i s1 hss
      obtain ⟨hatt, he⟩ := startSeg_fetchRecover hss
      refine ⟨by simp [h0 hatt], fun hfalse => ?_⟩
      rw [he] at hfalse
      simp at hfalse
    · rename_i s1 hss
      have he := startSeg_fetchCreate hss
      refine ⟨hle, fun hfalse => ?_⟩
      rw [he] at hfalse
      simp at hfalse
  · split
    · rename_i resp r s1 hrr
      have ha := resumeRecover_ret_attempted hrr
      exact ⟨hle, fun hf => h0 (by rw [← ha]; exact hf)⟩
    · rename_i resp s1 hrr
      have ha := resumeRecover_fetchCreate_attempted hrr
      exact ⟨hle, fun hf => h0 (by rw [← ha]; exact hf)⟩
  · rename_i resp0 heq0
    split
    rename_i s1 r hrc
    have ha : s1.recoveryAttempted = sys.st.recoveryAttempted := by
      have hx := resumeCreate_attempted resp0 sys.st
      rw [hrc] at hx
      exact hx
    exact ⟨hle, fun hf => h0 (by rw [← ha]; exact hf)⟩
  · exact ⟨hle, h0⟩

lemma sysRun_inv (net : Network) (sys : Sys) (sched : List Nat) (h : sysInv sys) :
    sysInv (sysRun net sys sched) := by
  induction sched generalizing sys with
  | nil => exact h
  | cons i rest ih => exact ih _ (sysStep_inv net sys i h)

/-- C4: per page load at most one session-recovery fetch is ever issued,
for any number of `ensureSession` callers under any interleaving — the
latch `sessionRecoveryAttempted` is set synchronously before the lookup's
`await`; and in particular two rapid calls while a stored session id
exists trigger exactly one recovery fetch. -/
theorem recovery_fetch_at_most_once
    (net : Network) (s0 : AppState) (n : Nat) (sched : List Nat)
    (h0 : s0.recoveryAttempted = false)
    (hcr : s0.sessionCreated = false) (hsid : strTruthy s0.sessionId = true) :
    (sysRun net ⟨s0, List.replicate n Proc.ready, 0, 0⟩ sched).recCount ≤ 1 ∧
    (sysRun net ⟨s0, [Proc.ready, Proc.ready], 0, 0⟩ [0, 1]).recCount = 1 := by
  constructor
  · exact (sysRun_inv net _ sched ⟨by norm_num, fun _ => rfl⟩).1
  · simp [sysRun, sysStep, startSeg, h0, hcr, hsid]

set_option maxRecDepth 100000 in
/-- Witness for C4: a fresh page load with stored session id `sess_1`,
three callers, an arbitrary six-step schedule — at most (and here exactly)
one recovery fetch. -/
theorem recovery_fetch_at_most_once_witness :
    (initState "u" (some "sess_1")).recoveryAttempted = false ∧
    ((sysRun { recoverResponses := [none] } ⟨initState "u" (some "sess_1"),
        List.replicate 3 Proc.ready, 0, 0⟩ [0, 1, 2, 0, 1, 2]).recCount ≤ 1 ∧
     (sysRun { recoverResponses := [none] } ⟨initState "u" (some "sess_1"),
        [Proc.ready, Proc.ready], 0, 0⟩ [0, 1]).recCount = 1) :=
  ⟨rfl, recovery_fetch_at_most_once { recoverResponses := [none] }
    (initState "u" (some "sess_1")) 3 [0, 1, 2, 0, 1, 2]
    rfl rfl (by decide)⟩

lemma resumeRecover_ret_shape {resp : Option Session} {s : AppState}
    {r : NegResult} {s1 : AppState} (h : resumeRecover resp s = .ret r s1) :
    r = .ok s1.sessionId ∧ s1.sessionCreated = true := by
  rw [resumeRecover] at h
  rcases htr : tryRecoverEffects resp s with ⟨s', res⟩
  rw [htr] at h
  rcases res with _ | sess
  · exact RecoverOut.noConfusion h
  · injection h with h1 h2
    subst h2
    exact ⟨h1.symm, rfl⟩

lemma resumeCreate_ok_shape {resp : Except Nat Session} {s s1 : AppState}
    {x : Option String} (h : resumeCreate resp s = (s1, .ok x)) :
    s1.sessionCreated = true ∧ s1.sessionId = x := by
  rcases resp with code | sess
  · rw [resumeCreate] at h
    injection h with h1 h2
    exact Except.noConfusion h2
  · rw [resumeCreate] at h
    injection h with h1 h2
    injection h2 with h3
    subst h1
    exact ⟨rfl, h3⟩

lemma ensureSessionSeq_post (net : Network) (s : AppState) (r : Option String)
    (h : (ensureSessionSeq net s).result = .ok r) :
    (ensureSessionSeq net s).st.sessionCreated = true ∧
    (ensureSessionSeq net s).st.sessionId = r := by
  rcases hss : startSeg s with ⟨r0, s1⟩ | s1 | s1 <;>
    simp only [ensureSessionSeq, hss] at h ⊢
  · obtain ⟨he, hr, hcr⟩ := startSeg_ret hss
    subst he
    rw [hr] at h
    injection h with h'
    exact ⟨hcr, h'⟩
  · rcases hrr : resumeRecover (net.recoverResponses.getD 0 none) s1
        with ⟨r1, s2⟩ | s2 <;> simp only [hrr] at h ⊢
    · obtain ⟨hr1, hcr⟩ := resumeRecover_ret_shape hrr
      rw [hr1] at h
      injection h with h'
      exact ⟨hcr, h'⟩
    · rcases hrc : resumeCreate (net.createResponses.getD 0 (.error 0)) s2
        with ⟨s3, r3⟩
      simp only [hrc] at h ⊢
      rcases r3 with e | x
      · exact Except.noConfusion h
      · obtain ⟨hc1, hc2⟩ := resumeCreate_ok_shape hrc
        injection h with h'
        exact ⟨hc1, h' ▸ hc2⟩
  · rcases hrc : resumeCreate (net.createResponses.getD 0 (.error 0)) s1
      with ⟨s3, r3⟩
    simp only [hrc] at h ⊢
    rcases r3 with e | x
    · exact Except.noConfusion h
    · obtain ⟨hc1, hc2⟩ := resumeCreate_ok_shape hrc
      injection h with h'
      exact ⟨hc1, h' ▸ hc2⟩

set_option maxRecDepth 100000 in
/-- C5, counterexample to the claim as stated: two `ensureSession` callers
overlapping on a fresh page (no stored session id) each pass the
`sessionCreatedRef` check before either creation POST resolves — creation
is not latched, only recovery is — so two creation POSTs are issued and
the two calls return two different session ids. -/
theorem ensure_session_overlap_two_creations :
    (sysRun { createResponses := [.ok { id := "sess_A" }, .ok { id := "sess_B" }] }
        ⟨initState "u" none, [Proc.ready, Proc.ready], 0, 0⟩
        [0, 1, 0, 1]).createCount = 2 ∧
    (sysRun { createResponses := [.ok { id := "sess_A" }, .ok { id := "sess_B" }] }
        ⟨initState "u" none, [Proc.ready, Proc.ready], 0, 0⟩
        [0, 1, 0, 1]).procs
      = [Proc.finished (.ok (some "sess_A")), Proc.finished (.ok (some "sess_B"))] ∧
    ("sess_A" : String) ≠ "sess_B" := by
  decide

/-- C5, amended: `ensureSession` is idempotent across *sequential*
invocations — once a call completes successfully returning a non-empty
session id, every later call in the page lifetime returns the same id
immediately, with the state unchanged and zero recovery or creation
requests; recovery is additionally latched to at most one attempt
(`recovery_fetch_at_most_once`).  Overlapping callers, however, are not
latched against double creation (`ensure_session_overlap_two_creations`). -/
theorem ensure_session_sequential_idempotent
    (net net2 : Network) (s : AppState) (id : String)
    (h : (ensureSessionSeq net s).result = .ok (some id)) (hid : id ≠ "") :
    ensureSessionSeq net2 (ensureSessionSeq net s).st =
      ⟨(ensureSessionSeq net s).st, .ok (some id), 0, 0⟩ := by
  obtain ⟨hcr, hsid⟩ := ensureSessionSeq_post net s (some id) h
  have hres := ensureSessionSeq_created net2 (ensureSessionSeq net s).st hcr
    (by rw [hsid]; simp [strTruthy, hid])
  rw [hres, hsid]

set_option maxRecDepth 100000 in
/-- Witness for C5 (amended) after one successful creation. -/
theorem ensure_session_sequential_idempotent_witness :
    ((ensureSessionSeq { createResponses := [.ok { id := "sess_X" }] }
        (initState "u" none)).result = .ok (some "sess_X") ∧ ("sess_X" : String) ≠ "") ∧
    ensureSessionSeq { }
        (ensureSessionSeq { createResponses := [.ok { id := "sess_X" }] }
          (initState "u" none)).st =
      ⟨(ensureSessionSeq { createResponses := [.ok { id := "sess_X" }] }
          (initState "u" none)).st, .ok (some "sess_X"), 0, 0⟩ :=
  ⟨⟨by decide, by decide⟩,
   ensure_session_sequential_idempotent
     { createResponses := [.ok { id := "sess_X" }] } { } (initState "u" none)
     "sess_X" (by decide) (by decide)⟩

/-! ## Recovery failure falls through to creation (C7) -/

/-- A network whose session lookup fails (or returns not-found) and whose
creation POST then succeeds with `sess`. -/
def recoverFailCreateOk (sess : Session) : Network :=
  { recoverResponses := [none], createResponses := [.ok sess] }

/-- A network whose session lookup and creation POST both fail. -/
def recoverFailCreateFail (code : Nat) : Network :=
  { recoverResponses := [none], createResponses := [.error code] }

/-- C7: when the stored session id's lookup fails or returns not-found, no
error is surfaced — the call still returns `ok` — the stored session id is
cleared, and the negotiator falls through to one creation POST whose
returned id is stored durably (ref and localStorage).  When creation also
fails the cleared state is observable: both the session ref and the stored
id are `none`. -/
theorem recovery_failure_falls_through
    (s : AppState) (sid : String) (sess : Session) (code : Nat)
    (hsid : s.sessionId = some sid) (hne : sid ≠ "")
    (hatt : s.recoveryAttempted = false) (hcr : s.sessionCreated = false) :
    ((ensureSessionSeq (recoverFailCreateOk sess) s).result = .ok (some sess.id) ∧
     (ensureSessionSeq (recoverFailCreateOk sess) s).st.sessionId = some sess.id ∧
     (ensureSessionSeq (recoverFailCreateOk sess) s).st.storedSessionId = some sess.id ∧
     (ensureSessionSeq (recoverFailCreateOk sess) s).recFetches = 1 ∧
     (ensureSessionSeq (recoverFailCreateOk sess) s).createFetches = 1) ∧
    ((ensureSessionSeq (recoverFailCreateFail code) s).st.sessionId = none ∧
     (ensureSessionSeq (recoverFailCreateFail code) s).st.storedSessionId = none) := by
  simp [ensureSessionSeq, startSeg, resumeRecover, tryRecoverEffects, resumeCreate,
    recoverFailCreateOk, recoverFailCreateFail, hsid, hne, hatt, hcr, strTruthy]

set_option maxRecDepth 100000 in
/-- Witness for C7 on a fresh page with stored id `sess_old` whose lookup
404s and whose creation returns `sess_new`. -/
theorem recovery_failure_falls_through_witness :
    ((initState "u" (some "sess_old")).sessionId = some "sess_old" ∧
     ("sess_old" : String) ≠ "") ∧
    ((ensureSessionSeq (recoverFailCreateOk { id := "sess_new" })
        (initState "u" (some "sess_old"))).result = .ok (some "sess_new") ∧
     (ensureSessionSeq (recoverFailCreateOk { id := "sess_new" })
        (initState "u" (some "sess_old"))).st.sessionId
        = some ({ id := "sess_new" : Session }).id ∧
     (ensureSessionSeq (recoverFailCreateOk { id := "sess_new" })
        (initState "u" (some "sess_old"))).st.storedSessionId
        = some ({ id := "sess_new" : Session }).id ∧
     (ensureSessionSeq (recoverFailCreateOk { id := "sess_new" })
        (initState "u" (some "sess_old"))).recFetches = 1 ∧
     (ensureSessionSeq (recoverFailCreateOk { id := "sess_new" })
        (initState "u" (some "sess_old"))).createFetches = 1) ∧
    ((ensureSessionSeq (recoverFailCreateFail 503)
        (initState "u" (some "sess_old"))).st.sessionId = none ∧
     (ensureSessionSeq (recoverFailCreateFail 503)
        (initState "u" (some "sess_old"))).st.storedSessionId = none) :=
  ⟨⟨rfl, by decide⟩,
   (recovery_failure_falls_through (initState "u" (some "sess_old")) "sess_old"
      { id := "sess_new" } 503 rfl (by decide) rfl rfl).1,
   (recovery_failure_falls_through (initState "u" (some "sess_old")) "sess_old"
      { id := "sess_new" } 503 rfl (by decide) rfl rfl).2⟩

/-! ## Product extraction into the agent message (C8) -/

/-- The products one function-response payload contributes, in push order:
the `products` array, then the singular `product`. -/
def respProducts : Option RespPayload → List Product
  | none => []
  | some r =>
    (match r.products with | some ps => ps | none => []) ++
    (match r.product with | some p => [p] | none => [])

lemma gatherStep_eq (acc : List Product) (e : ParsedEvent) :
    gatherStep acc e =
      if e.type = .functionResponse then acc ++ respProducts e.response
      else acc := by
  rcases hresp : e.response with _ | r
  · simp [gatherStep, respProducts, hresp]
  · rcases hp : r.products with _ | ps <;> rcases hq : r.product with _ | q <;>
      simp [gatherStep, respProducts, hresp, hp, hq, List.append_assoc]

lemma extract_fold (evs : List ParsedEvent) (acc : List Product) :
    evs.foldl gatherStep acc =
      acc ++ ((evs.filter (fun e => e.type = .functionResponse)).flatMap
        (fun e => respProducts e.response)) := by
  induction evs generalizing acc with
  | nil => simp
  | cons e rest ih =>
    rw [List.foldl_cons, gatherStep_eq, ih]
    by_cases hfr : e.type = .functionResponse <;>
      simp [hfr, List.filter_cons, List.append_assoc]

/-- C8: product extraction collects, from every function-response payload
in arrival order, the objects of its `products` array and then its
singular `product`, keeping exactly those whose name and price are both
truthy; and the turn's appended agent Message carries exactly this product
list together with the final text, the function-call events as tool
calls, and the parsed event sequence. -/
theorem products_into_message
    (net : Network) (s : AppState) (text : String) (events : List ADKEvent)
    (evs : List ParsedEvent)
    (hcr : s.sessionCreated = true) (hsid : strTruthy s.sessionId = true)
    (hstatus : s.status = .idle ∨ s.status = .humanMode)
    (htext : jsTrim text ≠ "")
    (hrun : net.runResponse = .ok events)
    (hfinal : ¬(finalTextOf events = AI_PAUSED_SENTINEL ∨
        jsTrim (finalTextOf events) = "")) :
    (extractProducts evs
      = ((evs.filter (fun e => e.type = .functionResponse)).flatMap
          (fun e => respProducts e.response)).filter
          (fun p => strTruthy p.name && intTruthy p.price)) ∧
    (sendMessageModel net text s).messages = s.messages ++
      [{ role := .user, text := jsTrim text },
       { role := .agent, text := finalTextOf events,
         products := extractProducts (events.map parseEvent),
         toolCalls := (events.map parseEvent).filter (fun e => e.type = .functionCall),
         events := events.map parseEvent }] := by
  constructor
  · rw [extractProducts, extract_fold]
    simp
  · rw [sendMessage_success net text s events hcr hsid hstatus htext hrun hfinal]

/-- The function-response event of the spec's end-to-end scenario A:
`products:[{name:"Sofa A", price:499}]`. -/
def sofaResponseEvent : ADKEvent :=
  { content := some
      { parts := some
          [{ functionResponse := some
              { name := "get_products",
                response := some
                  { products := some
                      [{ name := some "Sofa A", price := some 499 }] } } }] } }

set_option maxRecDepth 100000 in
/-- Witness for C8: scenario A — a function response carrying Sofa A, then
text `Here are some options`, yields the message with that text and that
one product. -/
theorem products_into_message_witness :
    (jsTrim "Show me black sofas" ≠ "" ∧
     ¬(finalTextOf [sofaResponseEvent, textEvent "Here are some options"]
          = AI_PAUSED_SENTINEL ∨
       jsTrim (finalTextOf [sofaResponseEvent, textEvent "Here are some options"])
          = "")) ∧
    extractProducts ([sofaResponseEvent, textEvent "Here are some options"].map
        parseEvent)
      = [{ name := some "Sofa A", price := some 499 }] ∧
    finalTextOf [sofaResponseEvent, textEvent "Here are some options"]
      = "Here are some options" ∧
    ((extractProducts ([sofaResponseEvent,
          textEvent "Here are some options"].map parseEvent)
      = ((([sofaResponseEvent, textEvent "Here are some options"].map
            parseEvent).filter (fun e => e.type = .functionResponse)).flatMap
          (fun e => respProducts e.response)).filter
          (fun p => strTruthy p.name && intTruthy p.price)) ∧
    (sendMessageModel
        { runResponse := .ok [sofaResponseEvent, textEvent "Here are some options"] }
        "Show me black sofas" readyState).messages = readyState.messages ++
      [{ role := .user, text := jsTrim "Show me black sofas" },
       { role := .agent,
         text := finalTextOf [sofaResponseEvent, textEvent "Here are some options"],
         products := extractProducts ([sofaResponseEvent,
           textEvent "Here are some options"].map parseEvent),
         toolCalls := ([sofaResponseEvent, textEvent "Here are some options"].map
           parseEvent).filter (fun e => e.type = .functionCall),
         events := [sofaResponseEvent, textEvent "Here are some options"].map
           parseEvent }]) :=
  ⟨⟨by decide, by decide⟩, by decide, by decide,
   products_into_message
     { runResponse := .ok [sofaResponseEvent, textEvent "Here are some options"] }
     readyState "Show me black sofas"
     [sofaResponseEvent, textEvent "Here are some options"]
     ([sofaResponseEvent, textEvent "Here are some options"].map parseEvent)
     rfl (by decide) (Or.inl rfl) (by decide) rfl (by decide)⟩

/-! ## The welcome-message invariant (C9) -/

/-- The invariant of C9: the first message is always the welcome entry. -/
def headWelcome (s : AppState) : Prop :=
  s.messages.head? = some WELCOME_MESSAGE

lemma headWelcome_append {s : AppState} (ms : List Message) (h : headWelcome s) :
    (s.messages ++ ms).head? = some WELCOME_MESSAGE := by
  cases hm : s.messages with
  | nil => rw [headWelcome, hm] at h; exact absurd h (by simp)
  | cons a l =>
    rw [headWelcome, hm] at h
    simpa using h

lemma tryRecoverEffects_head (resp : Option Session) (s : AppState)
    (h : headWelcome s) : headWelcome (tryRecoverEffects resp s).1 := by
  rcases resp with _ | sess
  · exact h
  · rw [tryRecoverEffects]
    by_cases he : sess.events.isEmpty <;>
      by_cases hrec : parseEventsToMessages sess.events = [] <;>
        by_cases hp : sess.aiPausedState <;>
          simp [he, hrec, hp, headWelcome] <;>
          exact h

lemma resumeCreate_head (resp : Except Nat Session) (s : AppState)
    (h : headWelcome s) : headWelcome (resumeCreate resp s).1 := by
  rcases resp <;> exact h

lemma resumeRecover_ret_head {resp : Option Session} {s : AppState}
    {r : NegResult} {s1 : AppState} (h : resumeRecover resp s = .ret r s1)
    (hw : headWelcome s) : headWelcome s1 := by
  rw [resumeRecover] at h
  rcases htr : tryRecoverEffects resp s with ⟨s', res⟩
  have hs' : headWelcome s' := by
    have hx := tryRecoverEffects_head resp s hw
    rw [htr] at hx
    exact hx
  rw [htr] at h
  rcases res with _ | sess
  · exact RecoverOut.noConfusion h
  · injection h with h1 h2
    rw [← h2]
    exact hs'

lemma resumeRecover_fetchCreate_head {resp : Option Session} {s : AppState}
    {s1 : AppState} (h : resumeRecover resp s = .fetchCreate s1)
    (hw : headWelcome s) : headWelcome s1 := by
  rw [resumeRecover] at h
  rcases htr : tryRecoverEffects resp s with ⟨s', res⟩
  have hs' : headWelcome s' := by
    have hx := tryRecoverEffects_head resp s hw
    rw [htr] at hx
    exact hx
  rw [htr] at h
  rcases res with _ | sess
  · injection h with h1
    rw [← h1]
    exact hs'
  · exact RecoverOut.noConfusion h

lemma ensureSessionSeq_head (net : Network) (s : AppState)
    (h : headWelcome s) : headWelcome (ensureSessionSeq net s).st := by
  rcases hss : startSeg s with ⟨r0, s1⟩ | s1 | s1 <;>
    simp only [ensureSessionSeq, hss]
  · obtain ⟨he, _, _⟩ := startSeg_ret hss
    rw [he]
    exact h
  · have h1 : headWelcome s1 := by
      rw [(startSeg_fetchRecover hss).2]
      exact h
    rcases hrr : resumeRecover (net.recoverResponses.getD 0 none) s1
        with ⟨r1, s2⟩ | s2 <;> simp only [hrr]
    · exact resumeRecover_ret_head hrr h1
    · rcases hrc : resumeCreate (net.createResponses.getD 0 (.error 0)) s2
        with ⟨s3, r3⟩
      simp only [hrc]
      have h2 := resumeRecover_fetchCreate_head hrr h1
      have h3 := resumeCreate_head (net.createResponses.getD 0 (.error 0)) s2 h2
      rw [hrc] at h3
      exact h3
  · have h1 : headWelcome s1 := by
      rw [startSeg_fetchCreate hss]
      exact h
    rcases hrc : resumeCreate (net.createResponses.getD 0 (.error 0)) s1
        with ⟨s3, r3⟩
    simp only [hrc]
    have h3 := resumeCreate_head (net.createResponses.getD 0 (.error 0)) s1 h1
    rw [hrc] at h3
    exact h3

lemma finallyStep_head (b : Bool) (s : AppState) (h : headWelcome s) :
    headWelcome (finallyStep b s) := h

lemma sendMessageModel_head (net : Network) (text : String) (s : AppState)
    (h : headWelcome s) : headWelcome (sendMessageModel net text s) := by
  by_cases hg : (jsTrim text = "" ∨ (s.status ≠ Status.idle ∧ s.status ≠ Status.humanMode))
  · rw [sendMessageModel, if_pos hg]
    exact h
  rw [sendMessageModel, if_neg hg]
  set s1 : AppState :=
    { s with messages := s.messages ++ [{ role := .user, text := jsTrim text }],
             status := if s.aiPaused then Status.humanMode else Status.loading,
             liveEvents := [], streamingText := "" } with hs1
  have h1 : headWelcome s1 := headWelcome_append _ h
  have hout := ensureSessionSeq_head net s1 h1
  rcases hres : (ensureSessionSeq net s1).result with msg | sid
  · simp only [hres]
    exact finallyStep_head _ _ (headWelcome_append _ hout)
  · simp only [hres]
    rcases hrun : net.runResponse with code | events
    · exact finallyStep_head _ _ (headWelcome_append _ hout)
    · show headWelcome (ite _ _ _)
      split_ifs with hfin
      · exact finallyStep_head _ _ hout
      · exact finallyStep_head _ _ (headWelcome_append _ hout)

lemma onInboundEvent_head (d : InboxData) (s : AppState) (h : headWelcome s) :
    headWelcome (onInboundEvent d s) := by
  rw [onInboundEvent]
  split_ifs <;>
    first
      | exact h
      | exact headWelcome_append _ h
      | exact headWelcome_append (s := { s with messages := s.messages ++
          [{ role := .agent, text := d.content.getD "", author := d.author,
             timestamp := d.timestamp }] }) _ (headWelcome_append _ h)

lemma resetModel_head (s : AppState) : headWelcome (resetModel s) := rfl

lemma initState_head (uid : String) (stored : Option String) :
    headWelcome (initState uid stored) := rfl

/-- Reachability of hook states: the initial mount, closed under the
operations that touch the message list — a full `sendMessage` turn, a
session negotiation (the mount-time `ensureSession` call, which may replay
recovered history), an inbound listener event, and `reset`. -/
inductive Reachable : AppState → Prop where
  | init (uid : String) (stored : Option String) : Reachable (initState uid stored)
  | send (net : Network) (text : String) {s : AppState} :
      Reachable s → Reachable (sendMessageModel net text s)
  | negotiate (net : Network) {s : AppState} :
      Reachable s → Reachable (ensureSessionSeq net s).st
  | inbound (d : InboxData) {s : AppState} :
      Reachable s → Reachable (onInboundEvent d s)
  | reset {s : AppState} : Reachable s → Reachable (resetModel s)

/-- C9: in every reachable state of the hook the message list is non-empty
and its first element is the fixed welcome message — initialisation, reset
and history recovery (re)establish the welcome entry at position 0, and
the turn pipeline, error reporting and the inbound listener only append. -/
theorem welcome_message_invariant (s : AppState) (h : Reachable s) :
    s.messages ≠ [] ∧ s.messages.head? = some WELCOME_MESSAGE := by
  have hw : headWelcome s := by
    induction h with
    | init uid stored => exact initState_head uid stored
    | send net text hs ih => exact sendMessageModel_head net text _ ih
    | negotiate net hs ih => exact ensureSessionSeq_head net _ ih
    | inbound d hs ih => exact onInboundEvent_head d _ ih
    | reset hs ih => exact resetModel_head _
  refine ⟨?_, hw⟩
  intro hnil
  rw [headWelcome, hnil] at hw
  exact Option.noConfusion hw

/-- Witness for C9 at the freshly mounted state. -/
theorem welcome_message_invariant_witness :
    Reachable (initState "u" none) ∧
    ((initState "u" none).messages ≠ [] ∧
     (initState "u" none).messages.head? = some WELCOME_MESSAGE) :=
  ⟨Reachable.init "u" none,
   welcome_message_invariant _ (Reachable.init "u" none)⟩
